import Mathlib

/-!
Verification of the dynamiqs fixed-step Rouchon master-equation integrators.

This development shallowly embeds the integrator family of
`src/dynamiqs/mesolve/rouchon.py` (classes `MERouchon`, `MERouchon1`,
`MERouchon1_5`, `MERouchon2`) and the solver-selection logic of
`src/dynamiqs/mesolve/mesolve.py` (`_mesolve`), over complex square matrices
`Matrix (Fin n) (Fin n) ℂ`.

A density-matrix batch element is a single matrix; batch axes are embedded as
explicit index functions where a claim is about batching. Operator-algebra
primitives that the source imports from modules outside `src/` (`kraus_map`,
`trace`, `inv_sqrtm`, `MESolver.H_nh`, `sum_no_jump`, `get_solver_class`,
`Solver.assert_supports_gradient`) are modelled from the spec, as indicated in
their doc comments.
-/

set_option maxHeartbeats 1000000
set_option linter.unusedVariables false

open scoped Matrix ComplexConjugate

noncomputable section

/-- Square complex matrices of size `n`, the dtype-carrying tensor core of a
density matrix or operator in the source. -/
abbrev Mat (n : ℕ) : Type := Matrix (Fin n) (Fin n) ℂ

/-- Modelled from the spec: the Kraus-map applicator (`kraus_map` from
`dynamiqs.utils.solver_utils`, not under `src/`): given a density matrix `rho`
and an operator stack `O` carrying an explicit operator-index axis, compute
`Σ_k O_k · rho · O_k†`. -/
def kraus_map {n m : ℕ} (rho : Mat n) (O : Fin m → Mat n) : Mat n :=
  ∑ k, O k * rho * (O k)ᴴ

/-- The trace renormalization used inline by the Rouchon order-1 and order-2
steps: `rho / trace(rho)[..., None, None].real`, an elementwise division of the
matrix by the real part of its trace (the `trace` primitive is external per the
spec and modelled as `Matrix.trace`). -/
def renorm {n : ℕ} (A : Mat n) : Mat n :=
  Matrix.of fun i j => A i j / ((Matrix.trace A).re : ℂ)

/-- Modelled from the spec: the no-jump aggregate `Σ_k Lk† Lk`
(`MESolver.sum_no_jump`, not under `src/`); in the source the jump operators
are a constant tensor stack, so the aggregate is time-constant. -/
def sumNoJump {n N : ℕ} (jump_ops : Fin N → Mat n) : Mat n :=
  ∑ k, (jump_ops k)ᴴ * jump_ops k

/-- The state of a `MERouchon` solver instance (`rouchon.py`, class
`MERouchon.__init__`): the (possibly time-dependent) Hamiltonian, the constant
jump-operator stack, and the fixed step size `self.dt = self.options.dt`. -/
structure MERouchon (n N : ℕ) where
  H : ℝ → Mat n
  jump_ops : Fin N → Mat n
  dt : ℝ

/-- `self.M1s = sqrt(self.dt) * self.jump_ops`, precomputed once at
`MERouchon.__init__` from the configured step size. -/
def MERouchon.M1s {n N : ℕ} (s : MERouchon n N) : Fin N → Mat n :=
  fun k => (Real.sqrt s.dt : ℂ) • s.jump_ops k

/-- `self.M1s_adj = self.M1s.adjoint()`, precomputed at `MERouchon.__init__`. -/
def MERouchon.M1s_adj {n N : ℕ} (s : MERouchon n N) : Fin N → Mat n :=
  fun k => (MERouchon.M1s s k)ᴴ

/-- `self.sum_no_jump`, the no-jump aggregate of the solver instance. -/
def MERouchon.sum_no_jump {n N : ℕ} (s : MERouchon n N) : Mat n :=
  sumNoJump s.jump_ops

/-- Modelled from the spec: the non-Hermitian effective Hamiltonian
`H_nh(t) = H(t) − (i/2)·Σ_k Lk† Lk` (`MESolver.H_nh`, not under `src/`;
`rouchon.py` inlines the identical expression `self.H(t) - 0.5j *
self.sum_no_jump` in the order-2 and order-1.5 steps). -/
def MERouchon.H_nh {n N : ℕ} (s : MERouchon n N) (t : ℝ) : Mat n :=
  s.H t - (Complex.I / 2) • MERouchon.sum_no_jump s

/-- `MERouchon1.Hdag_nh`: the adjoint of the non-Hermitian Hamiltonian. -/
def MERouchon1.Hdag_nh {n N : ℕ} (s : MERouchon n N) (t : ℝ) : Mat n :=
  (MERouchon.H_nh s t)ᴴ

/-- `MERouchon1.M0`: `self.I - 1j * dt * self.H_nh(t)`. -/
def MERouchon1.M0 {n N : ℕ} (s : MERouchon n N) (t dt : ℝ) : Mat n :=
  1 - (Complex.I * (dt : ℂ)) • MERouchon.H_nh s t

/-- `MERouchon1.M0_adj`: `self.I + 1j * dt * self.Hdag_nh(t)`. -/
def MERouchon1.M0_adj {n N : ℕ} (s : MERouchon n N) (t dt : ℝ) : Mat n :=
  1 + (Complex.I * (dt : ℂ)) • MERouchon1.Hdag_nh s t

/-- The unnormalized order-1 step,
`kraus_map(rho, self.M0(t, dt)) + kraus_map(rho, self.M1s)`
(`MERouchon1.forward`, first statement). -/
def rouchon1_pre {n N : ℕ} (s : MERouchon n N) (t dt : ℝ) (rho : Mat n) : Mat n :=
  kraus_map rho (fun _ : Fin 1 => MERouchon1.M0 s t dt) + kraus_map rho (MERouchon.M1s s)

/-- `MERouchon1.forward`: the unnormalized step followed by trace
renormalization. -/
def MERouchon1.forward {n N : ℕ} (s : MERouchon n N) (t dt : ℝ) (rho : Mat n) : Mat n :=
  renorm (rouchon1_pre s t dt rho)

/-- The unnormalized backward evolution of `rho` in
`MERouchon1.backward_augmented`:
`kraus_map(rho, self.M0(t, -dt)) - kraus_map(rho, self.M1s)`. -/
def rouchon1_backward_pre {n N : ℕ} (s : MERouchon n N) (t dt : ℝ) (rho : Mat n) : Mat n :=
  kraus_map rho (fun _ : Fin 1 => MERouchon1.M0 s t (-dt)) - kraus_map rho (MERouchon.M1s s)

/-- `MERouchon1.backward_augmented`: evolves `rho` backward (renormalized) and
the co-state `phi` with the adjoint Kraus operators (not renormalized). -/
def MERouchon1.backward_augmented {n N : ℕ} (s : MERouchon n N) (t dt : ℝ)
    (rho phi : Mat n) : Mat n × Mat n :=
  (renorm (rouchon1_backward_pre s t dt rho),
   kraus_map phi (fun _ : Fin 1 => MERouchon1.M0_adj s t dt)
     + kraus_map phi (MERouchon.M1s_adj s))

/-- The order-2 zeroth-order Kraus operator
(`MERouchon2.forward`, line `M0 = self.I - 1j * dt * H_nh - 0.5 * self.dt**2 *
H_nh @ H_nh`); note the quadratic term uses the configured `self.dt`, not the
step argument `dt`. -/
def rouchon2_M0 {n N : ℕ} (s : MERouchon n N) (t dt : ℝ) : Mat n :=
  1 - (Complex.I * (dt : ℂ)) • MERouchon.H_nh s t
    - ((1 / 2 : ℂ) * (s.dt : ℂ) ^ 2) • (MERouchon.H_nh s t * MERouchon.H_nh s t)

/-- The order-2 first-order Kraus operators
`M1s = 0.5 * sqrt(dt) * (self.jump_ops @ M0 + M0 @ self.jump_ops)`. -/
def rouchon2_M1s {n N : ℕ} (s : MERouchon n N) (t dt : ℝ) : Fin N → Mat n :=
  fun k => ((1 / 2 : ℂ) * (Real.sqrt dt : ℂ))
    • (s.jump_ops k * rouchon2_M0 s t dt + rouchon2_M0 s t dt * s.jump_ops k)

/-- The unnormalized order-2 step:
`tmp = kraus_map(rho, M1s); kraus_map(rho, M0) + tmp + 0.5 * kraus_map(tmp, M1s)`. -/
def rouchon2_pre {n N : ℕ} (s : MERouchon n N) (t dt : ℝ) (rho : Mat n) : Mat n :=
  let tmp := kraus_map rho (rouchon2_M1s s t dt)
  kraus_map rho (fun _ : Fin 1 => rouchon2_M0 s t dt) + tmp
    + (1 / 2 : ℂ) • kraus_map tmp (rouchon2_M1s s t dt)

/-- `MERouchon2.forward`: the unnormalized order-2 step followed by trace
renormalization. -/
def MERouchon2.forward {n N : ℕ} (s : MERouchon n N) (t dt : ℝ) (rho : Mat n) : Mat n :=
  renorm (rouchon2_pre s t dt rho)

/-- The backward order-2 zeroth-order operator
(`MERouchon2.backward_augmented`: `M0 = self.I + 1j * dt * H_nh - 0.5 * dt**2 *
H_nh @ H_nh`; here the quadratic term uses the step argument `dt`). -/
def rouchon2_M0_back {n N : ℕ} (s : MERouchon n N) (t dt : ℝ) : Mat n :=
  1 + (Complex.I * (dt : ℂ)) • MERouchon.H_nh s t
    - ((1 / 2 : ℂ) * (dt : ℂ) ^ 2) • (MERouchon.H_nh s t * MERouchon.H_nh s t)

/-- The backward order-2 first-order operators. -/
def rouchon2_M1s_back {n N : ℕ} (s : MERouchon n N) (t dt : ℝ) : Fin N → Mat n :=
  fun k => ((1 / 2 : ℂ) * (Real.sqrt dt : ℂ))
    • (s.jump_ops k * rouchon2_M0_back s t dt + rouchon2_M0_back s t dt * s.jump_ops k)

/-- The unnormalized backward evolution of `rho` in
`MERouchon2.backward_augmented`:
`tmp = kraus_map(rho, M1s); kraus_map(rho, M0) - tmp + 0.5 * kraus_map(tmp, M1s)`. -/
def rouchon2_backward_pre {n N : ℕ} (s : MERouchon n N) (t dt : ℝ) (rho : Mat n) : Mat n :=
  let tmp := kraus_map rho (rouchon2_M1s_back s t dt)
  kraus_map rho (fun _ : Fin 1 => rouchon2_M0_back s t dt) - tmp
    + (1 / 2 : ℂ) • kraus_map tmp (rouchon2_M1s_back s t dt)

/-- The adjoint zeroth-order operator of the backward order-2 step, built from
`Hdag_nh`. -/
def rouchon2_M0_adj {n N : ℕ} (s : MERouchon n N) (t dt : ℝ) : Mat n :=
  1 + (Complex.I * (dt : ℂ)) • MERouchon1.Hdag_nh s t
    - ((1 / 2 : ℂ) * (dt : ℂ) ^ 2) • (MERouchon1.Hdag_nh s t * MERouchon1.Hdag_nh s t)

/-- The adjoint first-order operators of the backward order-2 step. -/
def rouchon2_M1s_adj {n N : ℕ} (s : MERouchon n N) (t dt : ℝ) : Fin N → Mat n :=
  fun k => ((1 / 2 : ℂ) * (Real.sqrt dt : ℂ))
    • ((s.jump_ops k)ᴴ * rouchon2_M0_adj s t dt + rouchon2_M0_adj s t dt * (s.jump_ops k)ᴴ)

/-- `MERouchon2.backward_augmented`: evolves `rho` backward (renormalized) and
the co-state `phi` with the adjoint operators (not renormalized). -/
def MERouchon2.backward_augmented {n N : ℕ} (s : MERouchon n N) (t dt : ℝ)
    (rho phi : Mat n) : Mat n × Mat n :=
  (renorm (rouchon2_backward_pre s t dt rho),
   let tmp := kraus_map phi (rouchon2_M1s_adj s t dt)
   kraus_map phi (fun _ : Fin 1 => rouchon2_M0_adj s t dt) + tmp
     + (1 / 2 : ℂ) • kraus_map tmp (rouchon2_M1s_adj s t dt))

/-- The order-1.5 zeroth-order Kraus operator (`MERouchon1_5.forward`:
`M0 = self.I - 1j * dt * H_nh` with `H_nh = self.H - 0.5j * self.sum_no_jump`;
the source uses the stored Hamiltonian without evaluating it at `t`, so this
embedding takes the constant Hamiltonian matrix `H`). -/
def rouchon1_5_M0 {n N : ℕ} (H : Mat n) (jump_ops : Fin N → Mat n) (dt : ℝ) : Mat n :=
  1 - (Complex.I * (dt : ℂ)) • (H - (Complex.I / 2) • sumNoJump jump_ops)

/-- The order-1.5 normalization matrix
`S = M0.adjoint() @ M0 + dt * self.sum_no_jump`. -/
def rouchon1_5_S {n N : ℕ} (H : Mat n) (jump_ops : Fin N → Mat n) (dt : ℝ) : Mat n :=
  (rouchon1_5_M0 H jump_ops dt)ᴴ * rouchon1_5_M0 H jump_ops dt
    + (dt : ℂ) • sumNoJump jump_ops

/-- `MERouchon1_5.forward`. Modelled from the spec for the external
`inv_sqrtm` primitive: `S_inv_sqrtm` stands for `inv_sqrtm(S)` and is passed as
a parameter; theorems assume its contract (a Hermitian inverse square root of
`S`). The step applies it to `rho` via the Kraus map and then applies `M0` and
`Ms = sqrt(dt) * self.jump_ops`, with no trace renormalization. -/
def MERouchon1_5.forward {n N : ℕ} (H : Mat n) (jump_ops : Fin N → Mat n)
    (t dt : ℝ) (S_inv_sqrtm : Mat n) (rho : Mat n) : Mat n :=
  let M0 := rouchon1_5_M0 H jump_ops dt
  let Ms : Fin N → Mat n := fun k => (Real.sqrt dt : ℂ) • jump_ops k
  let rho1 := kraus_map rho (fun _ : Fin 1 => S_inv_sqrtm)
  kraus_map rho1 (fun _ : Fin 1 => M0) + kraus_map rho1 Ms

/-- Refinement comparison definition, following the spec's words for the
order-1 step (spec §4.3): `M0 = I − i·dt·H_nh(t)`,
`M1s = sqrt(dt) · [L_1, …, L_N]` with `dt` the step size passed to the step
function, then `KrausMap(ρ, M0) + KrausMap(ρ, M1s)` renormalized by the real
part of the trace. -/
def rouchon1_spec_step {n N : ℕ} (s : MERouchon n N) (t dt : ℝ) (rho : Mat n) : Mat n :=
  renorm (kraus_map rho
      (fun _ : Fin 1 =>
        1 - (Complex.I * (dt : ℂ)) • (s.H t - (Complex.I / 2) • sumNoJump s.jump_ops))
    + kraus_map rho (fun k => (Real.sqrt dt : ℂ) • s.jump_ops k))

/-- The spec's order-2 zeroth-order operator, `M0 = I − i·dt·H_nh(t) −
½dt²·H_nh(t)²` with `dt` the step size passed to the step function. -/
def rouchon2_spec_M0 {n N : ℕ} (s : MERouchon n N) (t dt : ℝ) : Mat n :=
  1 - (Complex.I * (dt : ℂ)) • (s.H t - (Complex.I / 2) • sumNoJump s.jump_ops)
    - ((1 / 2 : ℂ) * (dt : ℂ) ^ 2)
      • ((s.H t - (Complex.I / 2) • sumNoJump s.jump_ops)
        * (s.H t - (Complex.I / 2) • sumNoJump s.jump_ops))

/-- The spec's order-2 first-order operators, `M1s = ½√dt·(L·M0 + M0·L)`. -/
def rouchon2_spec_M1s {n N : ℕ} (s : MERouchon n N) (t dt : ℝ) : Fin N → Mat n :=
  fun k => ((1 / 2 : ℂ) * (Real.sqrt dt : ℂ))
    • (s.jump_ops k * rouchon2_spec_M0 s t dt + rouchon2_spec_M0 s t dt * s.jump_ops k)

/-- Refinement comparison definition, following the spec's words for the
order-2 step (spec §4.5): `KrausMap(ρ,M0) + tmp + 0.5·KrausMap(tmp,M1s)` where
`tmp = KrausMap(ρ,M1s)`, renormalized by the real part of the trace, with the
operators built from the step size `dt` passed to the step function. -/
def rouchon2_spec_step {n N : ℕ} (s : MERouchon n N) (t dt : ℝ) (rho : Mat n) : Mat n :=
  renorm (kraus_map rho (fun _ : Fin 1 => rouchon2_spec_M0 s t dt)
    + kraus_map rho (rouchon2_spec_M1s s t dt)
    + (1 / 2 : ℂ) • kraus_map (kraus_map rho (rouchon2_spec_M1s s t dt)) (rouchon2_spec_M1s s t dt))

/-! ### Solver selection and gradient support (`mesolve.py`, `_mesolve`) -/

/-- The abstract solver tags of the spec's solver selector (§4.7). -/
inductive SolverTag where
  | Euler | Dopri5 | Dopri8 | Tsit5 | Propagator | Rouchon1 | Rouchon1_5 | Rouchon2
deriving DecidableEq

/-- The concrete master-equation integrator classes imported and registered by
`mesolve.py`. -/
inductive IntegratorClass where
  | MEEuler | MEDopri5 | MEDopri8 | METsit5 | MEPropagator
deriving DecidableEq

/-- The failure surface of `_mesolve` relevant to solver selection. -/
inductive SolveError where
  | unsupportedSolver | unsupportedGradient
deriving DecidableEq

/-- The gradient modes of the spec's configuration layer. -/
inductive GradientMode where
  | noGrad | autograd | adjoint
deriving DecidableEq

/-- The solver registry of `_mesolve` (`mesolve.py` lines 157-163): the literal
dictionary `{Euler: MEEuler, Dopri5: MEDopri5, Dopri8: MEDopri8, Tsit5:
METsit5, Propagator: MEPropagator}`. No Rouchon tag is registered. -/
def solvers : SolverTag → Option IntegratorClass
  | SolverTag.Euler => some IntegratorClass.MEEuler
  | SolverTag.Dopri5 => some IntegratorClass.MEDopri5
  | SolverTag.Dopri8 => some IntegratorClass.MEDopri8
  | SolverTag.Tsit5 => some IntegratorClass.METsit5
  | SolverTag.Propagator => some IntegratorClass.MEPropagator
  | SolverTag.Rouchon1 => none
  | SolverTag.Rouchon1_5 => none
  | SolverTag.Rouchon2 => none

/-- Modelled from the spec: `get_solver_class` (from `dynamiqs.core._utils`,
not under `src/`) looks the tag up in the registry and fails with an
unsupported-solver error when the tag has no registered integrator. -/
def get_solver_class (tag : SolverTag) : Except SolveError IntegratorClass :=
  match solvers tag with
  | some cls => Except.ok cls
  | none => Except.error SolveError.unsupportedSolver

/-- Modelled from the spec: `Solver.assert_supports_gradient` (not under
`src/`). The order-1.5 method structurally lacks a backward step
(`MERouchon1_5.backward_augmented` raises `NotImplementedError` in
`rouchon.py`), so the backward/adjoint gradient mode is unsupported for it. -/
def supportsGradient : SolverTag → GradientMode → Bool
  | SolverTag.Rouchon1_5, GradientMode.adjoint => false
  | _, _ => true

/-- The `_mesolve` pipeline of `mesolve.py`, parameterized by the function
`run` that constructs the selected integrator and executes its stepping loop
(`solver_class(...)` followed by `solver.run()`). The selection and the
gradient-support check happen before `run` is invoked. -/
def mesolveWith {α : Type} (run : IntegratorClass → α → α) (tag : SolverTag)
    (g : GradientMode) (x : α) : Except SolveError α :=
  match get_solver_class tag with
  | Except.error e => Except.error e
  | Except.ok cls =>
    if supportsGradient tag g then Except.ok (run cls x) else Except.error SolveError.unsupportedGradient

/-! ### Batched stepping and vectorized dispatch (broadcast semantics) -/

/-- Modelled from the spec: the vectorized dispatch of `_vmap_mesolve`
(`compute_vmap` from `dynamiqs.core._utils`, not under `src/`) in Cartesian
batching mode (spec §4.6 step 3, §9): the per-trajectory solve is vectorized
over one axis per batched argument among the Hamiltonian, the jump operators
and the initial state, while save times, solver choice, gradient mode and
options are held fixed (they are closed over by `solve`); the semantics of the
vectorizing map is pointwise application of the underlying function to each
batch slice. -/
def compute_vmap_cartesian {Hty Lty Rty Res : Type} {bH bL bR : ℕ}
    (solve : Hty → Lty → Rty → Res)
    (Hb : Fin bH → Hty) (Lb : Fin bL → Lty) (Rb : Fin bR → Rty) :
    Fin bH → Fin bL → Fin bR → Res :=
  fun i k j => solve (Hb i) (Lb k) (Rb j)

/-- Modelled from the spec: the vectorized dispatch in broadcast (zip) mode
(`cartesian_batching` off): every batched argument shares one common batch
axis (spec §4.6 step 3, §9). -/
def compute_vmap_broadcast {Hty Lty Rty Res : Type} {b : ℕ}
    (solve : Hty → Lty → Rty → Res)
    (Hb : Fin b → Hty) (Lb : Fin b → Lty) (Rb : Fin b → Rty) : Fin b → Res :=
  fun i => solve (Hb i) (Lb i) (Rb i)

/-- A batch of density matrices with a Hamiltonian batch axis of size `bH`, a
jump-operator batch axis of size `bL` and an initial-state batch axis of size
`bR`. -/
abbrev BatchMat (bH bL bR n : ℕ) : Type := Fin bH → Fin bL → Fin bR → Mat n

/-- Modelled from the spec: the Kraus-map applicator applied to a batched
density matrix and an operator stack carrying the leading Hamiltonian and
jump-operator batch axes, with those axes broadcast (spec §4.1). -/
def kraus_map_b {bH bL bR n m : ℕ} (rho : BatchMat bH bL bR n)
    (O : Fin bH → Fin bL → Fin m → Mat n) : BatchMat bH bL bR n :=
  fun i k j => ∑ l, O i k l * rho i k j * (O i k l)ᴴ

/-- Trace renormalization broadcast over the batch axes: the trace is taken
per matrix and divided elementwise (`trace(rho)[..., None, None].real`). -/
def renorm_b {bH bL bR n : ℕ} (rho : BatchMat bH bL bR n) : BatchMat bH bL bR n :=
  fun i k j => renorm (rho i k j)

/-- The order-1 forward step applied to a whole batch: `M0` carries the
Hamiltonian and jump-operator batch axes, the scaled jump-operator stack
carries the jump-operator batch axis, and the renormalization divides each
matrix by its own trace. -/
def rouchon1_forward_b {bH bL bR n N : ℕ} (Hb : Fin bH → ℝ → Mat n)
    (Lb : Fin bL → Fin N → Mat n) (sdt t dt : ℝ) (rho : BatchMat bH bL bR n) :
    BatchMat bH bL bR n :=
  renorm_b
    (kraus_map_b rho (fun i k => fun _ : Fin 1 =>
        1 - (Complex.I * (dt : ℂ)) • (Hb i t - (Complex.I / 2) • sumNoJump (Lb k)))
      + kraus_map_b rho (fun _ k l => (Real.sqrt sdt : ℂ) • Lb k l))

/-- The fixed-step loop of the order-1 integrator for a single trajectory:
`m` forward steps of size `s.dt` starting at time `t0`. -/
def rouchon1_run {n N : ℕ} (s : MERouchon n N) : ℝ → ℕ → Mat n → Mat n
  | _, 0, rho => rho
  | t0, m + 1, rho => rouchon1_run s (t0 + s.dt) m (MERouchon1.forward s t0 s.dt rho)

/-- The fixed-step loop of the order-1 integrator applied to a whole batch. -/
def rouchon1_run_b {bH bL bR n N : ℕ} (Hb : Fin bH → ℝ → Mat n)
    (Lb : Fin bL → Fin N → Mat n) (sdt : ℝ) :
    ℝ → ℕ → BatchMat bH bL bR n → BatchMat bH bL bR n
  | _, 0, rho => rho
  | t0, m + 1, rho =>
    rouchon1_run_b Hb Lb sdt (t0 + sdt) m (rouchon1_forward_b Hb Lb sdt t0 sdt rho)

/-! ### Concrete instances used for counterexamples and witnesses -/

/-- A concrete jump operator on a two-level system: the projector
`|0⟩⟨0|` (Hermitian, idempotent). -/
def Lop : Mat 2 := !![1, 0; 0, 0]

/-- A concrete density matrix: the maximally mixed two-level state
(Hermitian, positive semidefinite, trace one). -/
def rhoD : Mat 2 := !![1/2, 0; 0, 1/2]

/-- An order-1/2 solver instance with zero Hamiltonian, jump operator `Lop`,
and configured step size `dt = 1`. -/
def sA : MERouchon 2 1 := ⟨fun _ => 0, fun _ => Lop, 1⟩

/-- The same physical problem as `sA` but with configured step size `dt = 4`. -/
def sB : MERouchon 2 1 := ⟨fun _ => 0, fun _ => Lop, 4⟩

/-- An order-2 solver instance with constant Hamiltonian `Lop`, no jump
operators, and configured step size `dt = 1`. -/
def sC : MERouchon 2 0 := ⟨fun _ => Lop, fun k => k.elim0, 1⟩

/-- The trivial one-dimensional solver instance: zero Hamiltonian, one zero
jump operator, step size `1`. -/
def s0 : MERouchon 1 1 := ⟨fun _ => 0, fun _ => 0, 1⟩

/-- Zero Hamiltonian on the one-dimensional system (order-1.5 witness). -/
def HZ : Mat 1 := 0

/-- One zero jump operator on the one-dimensional system. -/
def jumpsZ : Fin 1 → Mat 1 := fun _ => 0

/-! ### Helper lemmas -/

lemma trace_renorm {n : ℕ} (A : Mat n) :
    Matrix.trace (renorm A) = Matrix.trace A / ((Matrix.trace A).re : ℂ) := by
  simp only [renorm, Matrix.trace, Matrix.diag, Matrix.of_apply]
  rw [Finset.sum_div]

lemma trace_re_renorm {n : ℕ} (A : Mat n) (h : (Matrix.trace A).re ≠ 0) :
    (Matrix.trace (renorm A)).re = 1 := by
  rw [trace_renorm, div_eq_mul_inv, ← Complex.ofReal_inv]
  simp [Complex.mul_re]
  field_simp

lemma smul_renorm {n : ℕ} (A : Mat n) (h : (Matrix.trace A).re ≠ 0) :
    (((Matrix.trace A).re : ℂ)) • renorm A = A := by
  ext i j
  simp only [renorm, Matrix.smul_apply, Matrix.of_apply, smul_eq_mul]
  rw [mul_comm, div_mul_cancel₀ _ (Complex.ofReal_ne_zero.mpr h)]

lemma trace_kraus_map {n m : ℕ} (rho : Mat n) (O : Fin m → Mat n) :
    Matrix.trace (kraus_map rho O) = Matrix.trace ((∑ k, (O k)ᴴ * O k) * rho) := by
  unfold kraus_map
  rw [Matrix.trace_sum]
  rw [Finset.sum_mul, Matrix.trace_sum]
  refine Finset.sum_congr rfl fun k _ => ?_
  rw [Matrix.trace_mul_cycle]

lemma scaled_jump_square_sum {n N : ℕ} (jump_ops : Fin N → Mat n) (dt : ℝ) (hdt : 0 ≤ dt) :
    ∑ k, ((Real.sqrt dt : ℂ) • jump_ops k)ᴴ * ((Real.sqrt dt : ℂ) • jump_ops k)
      = (dt : ℂ) • sumNoJump jump_ops := by
  unfold sumNoJump
  rw [Finset.smul_sum]
  refine Finset.sum_congr rfl fun k _ => ?_
  rw [Matrix.conjTranspose_smul, smul_mul_smul_comm]
  congr 1
  rw [Complex.star_def, Complex.conj_ofReal, ← Complex.ofReal_mul, Real.mul_self_sqrt hdt]

lemma conj_sandwich {n : ℕ} (A R : Mat n) : (A * R)ᴴ * (A * R) = Rᴴ * (Aᴴ * A) * R := by
  rw [Matrix.conjTranspose_mul]
  rw [Matrix.mul_assoc, ← Matrix.mul_assoc Aᴴ A R, ← Matrix.mul_assoc]

/-- The order-1.5 Kraus operators square-sum to the normalization matrix `S`:
`M0†M0 + Σ (√dt·Lk)†(√dt·Lk) = S`. -/
lemma rouchon1_5_square_sum {n N : ℕ} (H : Mat n) (jump_ops : Fin N → Mat n)
    (dt : ℝ) (hdt : 0 ≤ dt) :
    (rouchon1_5_M0 H jump_ops dt)ᴴ * rouchon1_5_M0 H jump_ops dt
      + ∑ k, ((Real.sqrt dt : ℂ) • jump_ops k)ᴴ * ((Real.sqrt dt : ℂ) • jump_ops k)
      = rouchon1_5_S H jump_ops dt := by
  unfold rouchon1_5_S
  rw [scaled_jump_square_sum jump_ops dt hdt]

/-- Trace preservation of the order-1.5 step under the `inv_sqrtm` contract. -/
lemma rouchon1_5_trace_eq {n N : ℕ} (H : Mat n) (jump_ops : Fin N → Mat n)
    (t dt : ℝ) (R rho : Mat n) (hdt : 0 ≤ dt) (hR : R.IsHermitian)
    (hS : R * rouchon1_5_S H jump_ops dt * R = 1) :
    Matrix.trace (MERouchon1_5.forward H jump_ops t dt R rho) = Matrix.trace rho := by
  unfold MERouchon1_5.forward
  rw [Matrix.trace_add, trace_kraus_map, trace_kraus_map]
  rw [← Matrix.trace_add, ← Matrix.add_mul]
  rw [Fin.sum_univ_one]
  rw [rouchon1_5_square_sum H jump_ops dt hdt]
  have hrho1 : kraus_map rho (fun _ : Fin 1 => R) = R * rho * R := by
    unfold kraus_map
    rw [Fin.sum_univ_one, hR.eq]
  rw [hrho1]
  have h1 : rouchon1_5_S H jump_ops dt * (R * rho * R)
      = rouchon1_5_S H jump_ops dt * R * rho * R := by
    rw [← Matrix.mul_assoc, ← Matrix.mul_assoc]
  rw [h1, Matrix.trace_mul_comm]
  have h2 : R * (rouchon1_5_S H jump_ops dt * R * rho)
      = R * rouchon1_5_S H jump_ops dt * R * rho := by
    rw [← Matrix.mul_assoc, ← Matrix.mul_assoc]
  rw [h2, hS, Matrix.one_mul]

/-! ### Evaluation lemmas on the concrete instances -/

lemma sqrt_four : Real.sqrt 4 = 2 := by
  rw [show (4 : ℝ) = 2 ^ 2 by norm_num, Real.sqrt_sq (by norm_num)]

lemma Lop_mul_Lop : Lop * Lop = Lop := by
  ext i j
  fin_cases i <;> fin_cases j <;> simp [Lop, Matrix.mul_apply, Fin.sum_univ_two]

lemma sumNoJump_Lop : sumNoJump (fun _ : Fin 1 => Lop) = Lop := by
  unfold sumNoJump
  rw [Fin.sum_univ_one]
  ext i j
  fin_cases i <;> fin_cases j <;>
    simp [Lop, Matrix.mul_apply, Fin.sum_univ_two, Matrix.conjTranspose_apply]

lemma M0_sA : MERouchon1.M0 sA 0 4 = !![(-1 : ℂ), 0; 0, 1] := by
  unfold MERouchon1.M0 MERouchon.H_nh MERouchon.sum_no_jump
  rw [show sumNoJump sA.jump_ops = Lop from sumNoJump_Lop]
  show (1 : Mat 2) - (Complex.I * ((4:ℝ) : ℂ)) • ((0 : Mat 2) - (Complex.I / 2) • Lop) = _
  ext i j
  fin_cases i <;> fin_cases j <;>
    simp [Lop, Matrix.one_apply] <;> ring_nf <;> simp [Complex.I_sq] <;> ring_nf

lemma M0_sB : MERouchon1.M0 sB 0 4 = !![(-1 : ℂ), 0; 0, 1] := by
  unfold MERouchon1.M0 MERouchon.H_nh MERouchon.sum_no_jump
  rw [show sumNoJump sB.jump_ops = Lop from sumNoJump_Lop]
  show (1 : Mat 2) - (Complex.I * ((4:ℝ) : ℂ)) • ((0 : Mat 2) - (Complex.I / 2) • Lop) = _
  ext i j
  fin_cases i <;> fin_cases j <;>
    simp [Lop, Matrix.one_apply] <;> ring_nf <;> simp [Complex.I_sq] <;> ring_nf

lemma M1s_sA : MERouchon.M1s sA = fun _ : Fin 1 => Lop := by
  funext k
  simp [MERouchon.M1s, sA, Real.sqrt_one]

lemma M1s_sB : MERouchon.M1s sB = fun _ : Fin 1 => (2 : ℂ) • Lop := by
  funext k
  simp [MERouchon.M1s, sB, sqrt_four]

lemma kraus_rhoD_M0 : kraus_map rhoD (fun _ : Fin 1 => !![(-1 : ℂ), 0; 0, 1]) = rhoD := by
  unfold kraus_map
  rw [Fin.sum_univ_one]
  ext i j
  fin_cases i <;> fin_cases j <;>
    simp [rhoD, Matrix.mul_apply, Fin.sum_univ_two, Matrix.conjTranspose_apply]

lemma kraus_rhoD_Lop : kraus_map rhoD (fun _ : Fin 1 => Lop) = !![(1/2 : ℂ), 0; 0, 0] := by
  unfold kraus_map
  rw [Fin.sum_univ_one]
  ext i j
  fin_cases i <;> fin_cases j <;>
    simp [rhoD, Lop, Matrix.mul_apply, Fin.sum_univ_two, Matrix.conjTranspose_apply]

lemma kraus_rhoD_twoLop :
    kraus_map rhoD (fun _ : Fin 1 => (2 : ℂ) • Lop) = !![(2 : ℂ), 0; 0, 0] := by
  unfold kraus_map
  rw [Fin.sum_univ_one]
  ext i j
  fin_cases i <;> fin_cases j <;>
    simp [rhoD, Lop, Matrix.mul_apply, Fin.sum_univ_two, Matrix.conjTranspose_apply, map_ofNat]

lemma pre_sA : rouchon1_pre sA 0 4 rhoD = !![(1 : ℂ), 0; 0, 1/2] := by
  unfold rouchon1_pre
  rw [M0_sA, M1s_sA, kraus_rhoD_M0, kraus_rhoD_Lop]
  ext i j
  fin_cases i <;> fin_cases j <;> simp [rhoD] <;> norm_num

lemma pre_sB : rouchon1_pre sB 0 4 rhoD = !![(5/2 : ℂ), 0; 0, 1/2] := by
  unfold rouchon1_pre
  rw [M0_sB, M1s_sB, kraus_rhoD_M0, kraus_rhoD_twoLop]
  ext i j
  fin_cases i <;> fin_cases j <;> simp [rhoD] <;> norm_num

lemma renorm_one_half_00 : renorm (!![(1 : ℂ), 0; 0, 1/2] : Mat 2) 0 0 = 2/3 := by
  have h : (Matrix.trace (!![(1 : ℂ), 0; 0, 1/2] : Mat 2)).re = 3/2 := by
    simp [Matrix.trace, Fin.sum_univ_two]
    norm_num [Complex.add_re, Complex.div_re]
  simp only [renorm, Matrix.of_apply, h]
  norm_num

lemma renorm_five_half_00 : renorm (!![(5/2 : ℂ), 0; 0, 1/2] : Mat 2) 0 0 = 5/6 := by
  have h : (Matrix.trace (!![(5/2 : ℂ), 0; 0, 1/2] : Mat 2)).re = 3 := by
    simp [Matrix.trace, Fin.sum_univ_two]
    norm_num [Complex.add_re, Complex.div_re]
  simp only [renorm, Matrix.of_apply, h]
  norm_num

lemma forward_sA_00 : MERouchon1.forward sA 0 4 rhoD 0 0 = 2/3 := by
  unfold MERouchon1.forward
  rw [pre_sA]
  exact renorm_one_half_00

lemma forward_sB_00 : MERouchon1.forward sB 0 4 rhoD 0 0 = 5/6 := by
  unfold MERouchon1.forward
  rw [pre_sB]
  exact renorm_five_half_00

lemma spec_step_sA : rouchon1_spec_step sA 0 4 rhoD 0 0 = 5/6 := by
  unfold rouchon1_spec_step
  rw [show sumNoJump sA.jump_ops = Lop from sumNoJump_Lop]
  have hM0 : (1 : Mat 2) - (Complex.I * ((4:ℝ) : ℂ)) • (sA.H 0 - (Complex.I / 2) • Lop)
      = !![(-1 : ℂ), 0; 0, 1] := by
    show (1 : Mat 2) - (Complex.I * ((4:ℝ) : ℂ)) • ((0 : Mat 2) - (Complex.I / 2) • Lop) = _
    ext i j
    fin_cases i <;> fin_cases j <;>
      simp [Lop, Matrix.one_apply] <;> ring_nf <;> simp [Complex.I_sq] <;> ring_nf
  have hM1 : (fun k : Fin 1 => (Real.sqrt 4 : ℂ) • sA.jump_ops k)
      = fun _ : Fin 1 => (2 : ℂ) • Lop := by
    funext k
    simp [sA, sqrt_four]
  rw [hM0, hM1, kraus_rhoD_M0, kraus_rhoD_twoLop]
  have hsum : rhoD + !![(2 : ℂ), 0; 0, 0] = !![(5/2 : ℂ), 0; 0, 1/2] := by
    ext i j
    fin_cases i <;> fin_cases j <;> simp [rhoD] <;> norm_num
  rw [hsum]
  exact renorm_five_half_00

lemma kraus_map_empty {n : ℕ} (rho : Mat n) (O : Fin 0 → Mat n) : kraus_map rho O = 0 := by
  unfold kraus_map
  simp

lemma Hnh_sC : sC.H 0 - (Complex.I / 2) • sumNoJump sC.jump_ops = Lop := by
  unfold sumNoJump
  simp [sC]

lemma M0_sC : rouchon2_M0 sC 0 2 = !![(1/2 - 2*Complex.I : ℂ), 0; 0, 1] := by
  unfold rouchon2_M0 MERouchon.H_nh MERouchon.sum_no_jump
  rw [Hnh_sC]
  show (1 : Mat 2) - (Complex.I * ((2:ℝ) : ℂ)) • Lop
      - ((1/2 : ℂ) * ((1:ℝ) : ℂ) ^ 2) • (Lop * Lop) = _
  rw [Lop_mul_Lop]
  ext i j
  fin_cases i <;> fin_cases j <;> simp [Lop, Matrix.one_apply] <;> ring_nf

lemma M0_spec_sC : rouchon2_spec_M0 sC 0 2 = !![(-1 - 2*Complex.I : ℂ), 0; 0, 1] := by
  unfold rouchon2_spec_M0
  rw [Hnh_sC]
  show (1 : Mat 2) - (Complex.I * ((2:ℝ) : ℂ)) • Lop
      - ((1/2 : ℂ) * ((2:ℝ) : ℂ) ^ 2) • (Lop * Lop) = _
  rw [Lop_mul_Lop]
  ext i j
  fin_cases i <;> fin_cases j <;> simp [Lop, Matrix.one_apply] <;> ring_nf

lemma kraus_rhoD_M0C : kraus_map rhoD (fun _ : Fin 1 => !![(1/2 - 2*Complex.I : ℂ), 0; 0, 1])
    = !![(17/8 : ℂ), 0; 0, 1/2] := by
  unfold kraus_map
  rw [Fin.sum_univ_one]
  ext i j
  fin_cases i <;> fin_cases j <;>
    simp [rhoD, Matrix.mul_apply, Fin.sum_univ_two, Matrix.conjTranspose_apply, map_ofNat,
      Complex.ext_iff] <;> norm_num

lemma kraus_rhoD_M0Cspec : kraus_map rhoD (fun _ : Fin 1 => !![(-1 - 2*Complex.I : ℂ), 0; 0, 1])
    = !![(5/2 : ℂ), 0; 0, 1/2] := by
  unfold kraus_map
  rw [Fin.sum_univ_one]
  ext i j
  fin_cases i <;> fin_cases j <;>
    simp [rhoD, Matrix.mul_apply, Fin.sum_univ_two, Matrix.conjTranspose_apply, map_ofNat,
      Complex.ext_iff] <;> norm_num

lemma renorm_seventeen_00 : renorm (!![(17/8 : ℂ), 0; 0, 1/2] : Mat 2) 0 0 = 17/21 := by
  have h : (Matrix.trace (!![(17/8 : ℂ), 0; 0, 1/2] : Mat 2)).re = 21/8 := by
    simp [Matrix.trace, Fin.sum_univ_two]
    norm_num [Complex.add_re, Complex.div_re]
  simp only [renorm, Matrix.of_apply, h]
  norm_num

lemma pre_sC : rouchon2_pre sC 0 2 rhoD = !![(17/8 : ℂ), 0; 0, 1/2] := by
  unfold rouchon2_pre
  simp only [kraus_map_empty, M0_sC, kraus_rhoD_M0C, add_zero, smul_zero]

lemma forward2_sC_00 : MERouchon2.forward sC 0 2 rhoD 0 0 = 17/21 := by
  unfold MERouchon2.forward
  rw [pre_sC]
  exact renorm_seventeen_00

lemma spec_step2_sC_00 : rouchon2_spec_step sC 0 2 rhoD 0 0 = 5/6 := by
  unfold rouchon2_spec_step
  simp only [kraus_map_empty, M0_spec_sC, kraus_rhoD_M0Cspec, add_zero, smul_zero]
  exact renorm_five_half_00

lemma trace_one_mat1 : (Matrix.trace (1 : Mat 1)).re = 1 := by
  simp [Matrix.trace_one]

lemma pre1_s0 : rouchon1_pre s0 0 1 1 = 1 := by
  unfold rouchon1_pre kraus_map MERouchon1.M0 MERouchon.H_nh MERouchon.sum_no_jump
    sumNoJump MERouchon.M1s
  simp [s0]

lemma pre1_back_s0 : rouchon1_backward_pre s0 0 1 1 = 1 := by
  unfold rouchon1_backward_pre kraus_map MERouchon1.M0 MERouchon.H_nh MERouchon.sum_no_jump
    sumNoJump MERouchon.M1s
  simp [s0]

lemma pre2_s0 : rouchon2_pre s0 0 1 1 = 1 := by
  unfold rouchon2_pre kraus_map rouchon2_M0 rouchon2_M1s MERouchon.H_nh MERouchon.sum_no_jump
    sumNoJump
  simp [s0]

lemma pre2_back_s0 : rouchon2_backward_pre s0 0 1 1 = 1 := by
  unfold rouchon2_backward_pre kraus_map rouchon2_M0_back rouchon2_M1s_back MERouchon.H_nh
    MERouchon.sum_no_jump sumNoJump
  simp [s0]

lemma S_Z : rouchon1_5_S HZ jumpsZ 1 = 1 := by
  unfold rouchon1_5_S rouchon1_5_M0 sumNoJump
  simp [HZ, jumpsZ]

lemma RSR_Z : (1 : Mat 1) * rouchon1_5_S HZ jumpsZ 1 * 1 = 1 := by
  rw [S_Z]
  simp

/-! ### Claim theorems -/

/-- C1 (counterexample): the order-1 forward step does not, for every step
size `dt` passed to it, equal the spec formula with `M1s = sqrt(dt)·[L_k]`:
at the concrete instance `sA` (configured step `1`) called with `dt = 4`, the
code output (whose `M1s` was precomputed from the configured step) differs
from the spec formula at entry `(0,0)` (`2/3` versus `5/6`). -/
theorem rouchon1_forward_spec_mismatch :
    MERouchon1.forward sA 0 4 rhoD ≠ rouchon1_spec_step sA 0 4 rhoD := by
  intro h
  have h00 := congrFun (congrFun h 0) 0
  rw [forward_sA_00, spec_step_sA] at h00
  norm_num at h00

/-- C1 (amended): whenever the step size `dt` passed to the order-1 forward
step equals the solver's configured fixed step `s.dt` — as is always the case
when the fixed-step driver invokes it — the step returns
`(KrausMap(rho, M0) + KrausMap(rho, M1s))` divided elementwise by the real
part of its trace, with `M0 = I − i·dt·H_nh(t)` and `M1s` the jump-operator
stack scaled by `sqrt(dt)`. -/
theorem rouchon1_forward_step_formula :
    ∀ (n N : ℕ) (s : MERouchon n N) (t dt : ℝ) (rho : Mat n), dt = s.dt →
      MERouchon1.forward s t dt rho = rouchon1_spec_step s t dt rho := by
  intro n N s t dt rho h
  subst h
  rfl

/-- C1 witness: the amended theorem applied at a concrete instance. -/
theorem rouchon1_forward_step_formula_witness :
    (1 : ℝ) = sA.dt ∧ MERouchon1.forward sA 0 1 rhoD = rouchon1_spec_step sA 0 1 rhoD :=
  ⟨rfl, rouchon1_forward_step_formula 2 1 sA 0 1 rhoD rfl⟩

/-- C2 (counterexample): the order-2 forward step does not, for every passed
step size `dt`, use `M0 = I − i·dt·H_nh − ½dt²·H_nh²`: its quadratic term uses
the configured step `self.dt`. At the concrete instance `sC` (configured step
`1`) called with `dt = 2`, the code output differs from the spec formula at
entry `(0,0)` (`17/21` versus `5/6`). -/
theorem rouchon2_forward_spec_mismatch :
    MERouchon2.forward sC 0 2 rhoD ≠ rouchon2_spec_step sC 0 2 rhoD := by
  intro h
  have h00 := congrFun (congrFun h 0) 0
  rw [forward2_sC_00, spec_step2_sC_00] at h00
  norm_num at h00

/-- C2 (amended): whenever the step size `dt` passed to the order-2 forward
step equals the solver's configured fixed step `s.dt` — as is always the case
when the fixed-step driver invokes it — the step uses
`M0 = I − i·dt·H_nh(t) − ½dt²·H_nh(t)²` and `M1s = ½√dt·(L·M0 + M0·L)`, and
returns `KrausMap(rho,M0) + tmp + 0.5·KrausMap(tmp,M1s)` with
`tmp = KrausMap(rho,M1s)`, divided by the real part of its trace. -/
theorem rouchon2_forward_step_formula :
    ∀ (n N : ℕ) (s : MERouchon n N) (t dt : ℝ) (rho : Mat n), dt = s.dt →
      MERouchon2.forward s t dt rho = rouchon2_spec_step s t dt rho := by
  intro n N s t dt rho h
  subst h
  rfl

/-- C2 witness: the amended theorem applied at a concrete instance. -/
theorem rouchon2_forward_step_formula_witness :
    (1 : ℝ) = sA.dt ∧ MERouchon2.forward sA 0 1 rhoD = rouchon2_spec_step sA 0 1 rhoD :=
  ⟨rfl, rouchon2_forward_step_formula 2 1 sA 0 1 rhoD rfl⟩

/-- C4 (counterexample): the per-step Kraus operators are not all rebuilt from
the step size `dt` passed to the step function: two order-1 solver instances
that agree in Hamiltonian and jump operators and differ only in the configured
step size produce different outputs for the same step call `(t, dt, rho)`,
because `M1s` is precomputed at initialization from the configured step. -/
theorem step_operators_depend_on_configured_dt :
    sA.H = sB.H ∧ sA.jump_ops = sB.jump_ops
      ∧ MERouchon1.forward sA 0 4 rhoD ≠ MERouchon1.forward sB 0 4 rhoD := by
  refine ⟨rfl, rfl, fun h => ?_⟩
  have h00 := congrFun (congrFun h 0) 0
  rw [forward_sA_00, forward_sB_00] at h00
  norm_num at h00

/-- C4 (amended): the zeroth-order operator `M0` is rebuilt each step from the
current `t` and the passed `dt`, and the step depends on the Hamiltonian only
through its value at the current time `t` (it is re-evaluated each step); but
`M1s` (order 1) is precomputed at initialization from the configured step size,
the order-2 quadratic `M0` term uses the configured step size, and the jump
operators are constant tensors. Hence two instances agreeing in jump operators,
configured step, and Hamiltonian value at `t` take identical steps. -/
theorem step_operators_current_time_dependence :
    ∀ (n N : ℕ) (s1 s2 : MERouchon n N) (t dt : ℝ) (rho : Mat n),
      s1.jump_ops = s2.jump_ops → s1.dt = s2.dt → s1.H t = s2.H t →
      MERouchon1.forward s1 t dt rho = MERouchon1.forward s2 t dt rho
        ∧ MERouchon2.forward s1 t dt rho = MERouchon2.forward s2 t dt rho := by
  intro n N s1 s2 t dt rho hj hdt hH
  constructor
  · unfold MERouchon1.forward rouchon1_pre MERouchon1.M0 MERouchon.H_nh MERouchon.sum_no_jump
      MERouchon.M1s
    rw [hj, hdt, hH]
  · have hM0 : rouchon2_M0 s1 t dt = rouchon2_M0 s2 t dt := by
      unfold rouchon2_M0 MERouchon.H_nh MERouchon.sum_no_jump
      rw [hj, hdt, hH]
    unfold MERouchon2.forward rouchon2_pre rouchon2_M1s
    rw [hM0, hj]

/-- C4 witness: the amended theorem applied at a concrete instance. -/
theorem step_operators_current_time_dependence_witness :
    sA.jump_ops = sA.jump_ops ∧ sA.dt = sA.dt ∧ sA.H 0 = sA.H 0
      ∧ MERouchon1.forward sA 0 1 rhoD = MERouchon1.forward sA 0 1 rhoD
      ∧ MERouchon2.forward sA 0 1 rhoD = MERouchon2.forward sA 0 1 rhoD := by
  have h := step_operators_current_time_dependence 2 1 sA sA 0 1 rhoD rfl rfl rfl
  exact ⟨rfl, rfl, rfl, h.1, h.2⟩

/-- C3: requesting a gradient mode unsupported by the selected solver method
fails before any integration step is executed: whenever the gradient-support
check denies the pair (in particular the backward/adjoint mode with Rouchon
order 1.5, whose backward step is structurally absent), the `_mesolve` pipeline
returns an error that does not depend on the integrator-running function
`run`, which is therefore never invoked. The error is the unsupported-solver
error when the tag is unregistered (the case for every Rouchon tag in this
registry) and the unsupported-gradient error otherwise. -/
theorem unsupported_gradient_fails_fast :
    supportsGradient SolverTag.Rouchon1_5 GradientMode.adjoint = false
  ∧ ∀ (tag : SolverTag) (g : GradientMode), supportsGradient tag g = false →
      ∀ {α : Type} (run : IntegratorClass → α → α) (x : α),
        mesolveWith run tag g x
          = Except.error ((solvers tag).elim SolveError.unsupportedSolver
              (fun _ => SolveError.unsupportedGradient)) := by
  refine ⟨rfl, ?_⟩
  intro tag g hg α run x
  unfold mesolveWith get_solver_class
  cases h : solvers tag with
  | none => simp [h]
  | some cls => simp [h, hg]

/-- C3 witness: the theorem applied at the Rouchon-1.5 tag with the adjoint
gradient mode and a concrete run function. -/
theorem unsupported_gradient_fails_fast_witness :
    supportsGradient SolverTag.Rouchon1_5 GradientMode.adjoint = false
  ∧ mesolveWith (fun _ (x : ℕ) => x) SolverTag.Rouchon1_5 GradientMode.adjoint 0
      = Except.error SolveError.unsupportedSolver :=
  ⟨rfl, unsupported_gradient_fails_fast.2 SolverTag.Rouchon1_5 GradientMode.adjoint rfl
    (fun _ x => x) 0⟩

/-- C5: the solver registry of `_mesolve` maps exactly the five tags Euler,
Dopri5, Dopri8, Tsit5 and Propagator to concrete integrator constructors and
raises the unsupported-solver error for each of Rouchon1, Rouchon1.5 and
Rouchon2 — although `mesolve`'s own docstring lists Rouchon1 and Rouchon2 as
supported solvers. -/
theorem solver_selector_registry :
    get_solver_class SolverTag.Euler = Except.ok IntegratorClass.MEEuler
  ∧ get_solver_class SolverTag.Dopri5 = Except.ok IntegratorClass.MEDopri5
  ∧ get_solver_class SolverTag.Dopri8 = Except.ok IntegratorClass.MEDopri8
  ∧ get_solver_class SolverTag.Tsit5 = Except.ok IntegratorClass.METsit5
  ∧ get_solver_class SolverTag.Propagator = Except.ok IntegratorClass.MEPropagator
  ∧ get_solver_class SolverTag.Rouchon1 = Except.error SolveError.unsupportedSolver
  ∧ get_solver_class SolverTag.Rouchon1_5 = Except.error SolveError.unsupportedSolver
  ∧ get_solver_class SolverTag.Rouchon2 = Except.error SolveError.unsupportedSolver :=
  ⟨rfl, rfl, rfl, rfl, rfl, rfl, rfl, rfl⟩

/-- C6: under the contract of the external `inv_sqrtm` primitive — `R` is a
Hermitian matrix with `R·S·R = I`, where `S = M0†M0 + dt·Σ Lk†Lk` — the
order-1.5 Kraus operators `M0·R` and `√dt·Lk·R` satisfy the completeness
relation exactly, the step is literally the Kraus sum with no post-hoc trace
renormalization, and it preserves the trace of every `rho`. -/
theorem rouchon1_5_completeness_trace_preserving :
    ∀ (n N : ℕ) (H : Mat n) (jump_ops : Fin N → Mat n) (t dt : ℝ) (R : Mat n),
      0 ≤ dt → R.IsHermitian → R * rouchon1_5_S H jump_ops dt * R = 1 →
      ((rouchon1_5_M0 H jump_ops dt * R)ᴴ * (rouchon1_5_M0 H jump_ops dt * R)
          + ∑ k, ((Real.sqrt dt : ℂ) • jump_ops k * R)ᴴ * ((Real.sqrt dt : ℂ) • jump_ops k * R)
          = 1)
      ∧ (∀ rho : Mat n, MERouchon1_5.forward H jump_ops t dt R rho
            = kraus_map (kraus_map rho (fun _ : Fin 1 => R))
                (fun _ : Fin 1 => rouchon1_5_M0 H jump_ops dt)
              + kraus_map (kraus_map rho (fun _ : Fin 1 => R))
                  (fun k => (Real.sqrt dt : ℂ) • jump_ops k))
      ∧ ∀ rho : Mat n,
          Matrix.trace (MERouchon1_5.forward H jump_ops t dt R rho) = Matrix.trace rho := by
  intro n N H jump_ops t dt R hdt hR hS
  refine ⟨?_, fun rho => rfl,
    fun rho => rouchon1_5_trace_eq H jump_ops t dt R rho hdt hR hS⟩
  rw [conj_sandwich]
  have hsum : ∑ k, ((Real.sqrt dt : ℂ) • jump_ops k * R)ᴴ * ((Real.sqrt dt : ℂ) • jump_ops k * R)
      = Rᴴ * ((dt : ℂ) • sumNoJump jump_ops) * R := by
    have h1 : ∀ k, ((Real.sqrt dt : ℂ) • jump_ops k * R)ᴴ * ((Real.sqrt dt : ℂ) • jump_ops k * R)
        = Rᴴ * (((Real.sqrt dt : ℂ) • jump_ops k)ᴴ * ((Real.sqrt dt : ℂ) • jump_ops k)) * R :=
      fun k => conj_sandwich _ R
    simp only [h1]
    rw [← scaled_jump_square_sum jump_ops dt hdt]
    rw [Finset.mul_sum, Finset.sum_mul]
  rw [hsum]
  have hcollect : Rᴴ * ((rouchon1_5_M0 H jump_ops dt)ᴴ * rouchon1_5_M0 H jump_ops dt) * R
        + Rᴴ * ((dt : ℂ) • sumNoJump jump_ops) * R
      = Rᴴ * rouchon1_5_S H jump_ops dt * R := by
    unfold rouchon1_5_S
    rw [Matrix.mul_add, Matrix.add_mul]
  rw [hcollect, hR.eq, hS]

/-- C6 witness: the theorem applied at a concrete instance satisfying the
`inv_sqrtm` contract. -/
theorem rouchon1_5_completeness_trace_preserving_witness :
    (0 : ℝ) ≤ 1 ∧ (1 : Mat 1).IsHermitian
  ∧ (1 : Mat 1) * rouchon1_5_S HZ jumpsZ 1 * 1 = 1
  ∧ ((rouchon1_5_M0 HZ jumpsZ 1 * 1)ᴴ * (rouchon1_5_M0 HZ jumpsZ 1 * 1)
      + ∑ k, ((Real.sqrt 1 : ℂ) • jumpsZ k * 1)ᴴ * ((Real.sqrt 1 : ℂ) • jumpsZ k * 1) = 1)
  ∧ Matrix.trace (MERouchon1_5.forward HZ jumpsZ 0 1 1 1) = Matrix.trace (1 : Mat 1) := by
  have h := rouchon1_5_completeness_trace_preserving 1 1 HZ jumpsZ 0 1 1 (by norm_num)
    Matrix.isHermitian_one RSR_Z
  exact ⟨by norm_num, Matrix.isHermitian_one, RSR_Z, h.1, h.2.2 1⟩

/-- C7: the order-1 backward step evolves `rho` using `M0(t, −dt)` — which
equals `I + i·dt·H_nh(t)` — with the jump-map contribution subtracted instead
of added, and renormalizes `rho` by the real part of its trace; the co-state
`phi` is evolved with the adjoint Kraus operators built from `H_nh(t)†` and
the adjoints of the scaled jump operators, and is not trace-renormalized. -/
theorem rouchon1_backward_augmented_formula :
    ∀ (n N : ℕ) (s : MERouchon n N) (t dt : ℝ) (rho phi : Mat n),
      MERouchon1.backward_augmented s t dt rho phi
        = (renorm (kraus_map rho
              (fun _ : Fin 1 => 1 + (Complex.I * (dt : ℂ)) • MERouchon.H_nh s t)
            - kraus_map rho (fun k => (Real.sqrt s.dt : ℂ) • s.jump_ops k)),
           kraus_map phi (fun _ : Fin 1 => 1 + (Complex.I * (dt : ℂ)) • (MERouchon.H_nh s t)ᴴ)
             + kraus_map phi (fun k => (Real.sqrt s.dt : ℂ) • (s.jump_ops k)ᴴ)) := by
  intro n N s t dt rho phi
  unfold MERouchon1.backward_augmented rouchon1_backward_pre MERouchon1.M0 MERouchon1.M0_adj
    MERouchon1.Hdag_nh MERouchon.M1s_adj MERouchon.M1s
  simp only [Complex.ofReal_neg, mul_neg, neg_smul, sub_neg_eq_add, Matrix.conjTranspose_smul,
    Complex.star_def, Complex.conj_ofReal]

/-- C8: in exact arithmetic every Rouchon forward step maps a trace-1 input to
an output whose trace has real part 1: for orders 1 and 2 whenever the real
part of the unnormalized step's trace is nonzero (so the renormalization is
defined), and for order 1.5 under the `inv_sqrtm` contract, where the trace is
preserved exactly. -/
theorem rouchon_steps_trace_one :
    (∀ (n N : ℕ) (s : MERouchon n N) (t dt : ℝ) (rho : Mat n),
        Matrix.trace rho = 1 → (Matrix.trace (rouchon1_pre s t dt rho)).re ≠ 0 →
        (Matrix.trace (MERouchon1.forward s t dt rho)).re = 1)
  ∧ (∀ (n N : ℕ) (s : MERouchon n N) (t dt : ℝ) (rho : Mat n),
        Matrix.trace rho = 1 → (Matrix.trace (rouchon2_pre s t dt rho)).re ≠ 0 →
        (Matrix.trace (MERouchon2.forward s t dt rho)).re = 1)
  ∧ (∀ (n N : ℕ) (H : Mat n) (jump_ops : Fin N → Mat n) (t dt : ℝ) (R rho : Mat n),
        0 ≤ dt → R.IsHermitian → R * rouchon1_5_S H jump_ops dt * R = 1 →
        Matrix.trace rho = 1 →
        Matrix.trace (MERouchon1_5.forward H jump_ops t dt R rho) = 1) := by
  refine ⟨?_, ?_, ?_⟩
  · intro n N s t dt rho htr hpre
    unfold MERouchon1.forward
    exact trace_re_renorm _ hpre
  · intro n N s t dt rho htr hpre
    unfold MERouchon2.forward
    exact trace_re_renorm _ hpre
  · intro n N H jump_ops t dt R rho hdt hR hS htr
    rw [rouchon1_5_trace_eq H jump_ops t dt R rho hdt hR hS, htr]

/-- C8 witness: the theorem applied to the trivial one-dimensional instance. -/
theorem rouchon_steps_trace_one_witness :
    Matrix.trace (1 : Mat 1) = 1
  ∧ (Matrix.trace (rouchon1_pre s0 0 1 1)).re ≠ 0
  ∧ (Matrix.trace (MERouchon1.forward s0 0 1 1)).re = 1
  ∧ (Matrix.trace (rouchon2_pre s0 0 1 1)).re ≠ 0
  ∧ (Matrix.trace (MERouchon2.forward s0 0 1 1)).re = 1
  ∧ (0 : ℝ) ≤ 1
  ∧ (1 : Mat 1).IsHermitian
  ∧ (1 : Mat 1) * rouchon1_5_S HZ jumpsZ 1 * 1 = 1
  ∧ Matrix.trace (MERouchon1_5.forward HZ jumpsZ 0 1 1 1) = 1 := by
  have htr : Matrix.trace (1 : Mat 1) = 1 := by simp
  have h1 : (Matrix.trace (rouchon1_pre s0 0 1 1)).re ≠ 0 := by
    rw [pre1_s0, trace_one_mat1]; norm_num
  have h2 : (Matrix.trace (rouchon2_pre s0 0 1 1)).re ≠ 0 := by
    rw [pre2_s0, trace_one_mat1]; norm_num
  exact ⟨htr, h1, rouchon_steps_trace_one.1 1 1 s0 0 1 1 htr h1, h2,
    rouchon_steps_trace_one.2.1 1 1 s0 0 1 1 htr h2, by norm_num, Matrix.isHermitian_one,
    RSR_Z,
    rouchon_steps_trace_one.2.2 1 1 HZ jumpsZ 0 1 1 1 (by norm_num) Matrix.isHermitian_one
      RSR_Z htr⟩

/-- C9: batch independence of the vectorized dispatch. First conjunct: in
Cartesian batching mode, each component of the dispatched result over the
batched axes of the Hamiltonian, the jump operators and the initial state
equals the per-trajectory solve of that component's slices, for an arbitrary
per-trajectory solve function — hence for every dispatched solver, with save
times, solver choice, gradient mode and options held unbatched. Second
conjunct: likewise in broadcast (zip) mode with one shared batch axis. Third
conjunct, grounding the broadcast semantics in the stepping arithmetic under
`src/`: each component of the batched order-1 Rouchon fixed-step loop, with
batched Hamiltonian and batched jump-operator axes, equals at every step count
the single-trajectory loop run on that component alone. -/
theorem batched_solve_componentwise :
    (∀ (Hty Lty Rty Res : Type) (bH bL bR : ℕ) (solve : Hty → Lty → Rty → Res)
        (Hb : Fin bH → Hty) (Lb : Fin bL → Lty) (Rb : Fin bR → Rty)
        (i : Fin bH) (k : Fin bL) (j : Fin bR),
        compute_vmap_cartesian solve Hb Lb Rb i k j = solve (Hb i) (Lb k) (Rb j))
  ∧ (∀ (Hty Lty Rty Res : Type) (b : ℕ) (solve : Hty → Lty → Rty → Res)
        (Hb : Fin b → Hty) (Lb : Fin b → Lty) (Rb : Fin b → Rty) (i : Fin b),
        compute_vmap_broadcast solve Hb Lb Rb i = solve (Hb i) (Lb i) (Rb i))
  ∧ (∀ (bH bL bR n N : ℕ) (Hb : Fin bH → ℝ → Mat n) (Lb : Fin bL → Fin N → Mat n)
        (sdt t0 : ℝ) (m : ℕ) (rho : BatchMat bH bL bR n)
        (i : Fin bH) (k : Fin bL) (j : Fin bR),
        rouchon1_run_b Hb Lb sdt t0 m rho i k j
          = rouchon1_run ⟨Hb i, Lb k, sdt⟩ t0 m (rho i k j)) := by
  refine ⟨?_, ?_, ?_⟩
  · intros
    rfl
  · intros
    rfl
  · intro bH bL bR n N Hb Lb sdt t0 m
    induction m generalizing t0 with
    | zero =>
      intro rho i k j
      rfl
    | succ m ih =>
      intro rho i k j
      show rouchon1_run_b Hb Lb sdt (t0 + sdt) m
          (rouchon1_forward_b Hb Lb sdt t0 sdt rho) i k j
        = rouchon1_run ⟨Hb i, Lb k, sdt⟩ (t0 + sdt) m
            (MERouchon1.forward ⟨Hb i, Lb k, sdt⟩ t0 sdt (rho i k j))
      rw [ih]
      rfl

/-- C10: the trace renormalization of the order-1 and order-2 forward and
backward steps divides the stepped matrix elementwise by the real part of its
trace unconditionally (no guard); when that real part is nonzero, the division
is well defined: rescaling the returned matrix by the divisor recovers the
stepped matrix exactly. -/
theorem trace_renormalization_well_defined :
    (∀ (n N : ℕ) (s : MERouchon n N) (t dt : ℝ) (rho : Mat n),
        MERouchon1.forward s t dt rho = renorm (rouchon1_pre s t dt rho)
      ∧ ((Matrix.trace (rouchon1_pre s t dt rho)).re ≠ 0 →
          ((Matrix.trace (rouchon1_pre s t dt rho)).re : ℂ) • MERouchon1.forward s t dt rho
            = rouchon1_pre s t dt rho))
  ∧ (∀ (n N : ℕ) (s : MERouchon n N) (t dt : ℝ) (rho phi : Mat n),
        (MERouchon1.backward_augmented s t dt rho phi).1
            = renorm (rouchon1_backward_pre s t dt rho)
      ∧ ((Matrix.trace (rouchon1_backward_pre s t dt rho)).re ≠ 0 →
          ((Matrix.trace (rouchon1_backward_pre s t dt rho)).re : ℂ)
              • (MERouchon1.backward_augmented s t dt rho phi).1
            = rouchon1_backward_pre s t dt rho))
  ∧ (∀ (n N : ℕ) (s : MERouchon n N) (t dt : ℝ) (rho : Mat n),
        MERouchon2.forward s t dt rho = renorm (rouchon2_pre s t dt rho)
      ∧ ((Matrix.trace (rouchon2_pre s t dt rho)).re ≠ 0 →
          ((Matrix.trace (rouchon2_pre s t dt rho)).re : ℂ) • MERouchon2.forward s t dt rho
            = rouchon2_pre s t dt rho))
  ∧ (∀ (n N : ℕ) (s : MERouchon n N) (t dt : ℝ) (rho phi : Mat n),
        (MERouchon2.backward_augmented s t dt rho phi).1
            = renorm (rouchon2_backward_pre s t dt rho)
      ∧ ((Matrix.trace (rouchon2_backward_pre s t dt rho)).re ≠ 0 →
          ((Matrix.trace (rouchon2_backward_pre s t dt rho)).re : ℂ)
              • (MERouchon2.backward_augmented s t dt rho phi).1
            = rouchon2_backward_pre s t dt rho)) := by
  refine ⟨fun n N s t dt rho => ⟨rfl, fun h => ?_⟩,
    fun n N s t dt rho phi => ⟨rfl, fun h => ?_⟩,
    fun n N s t dt rho => ⟨rfl, fun h => ?_⟩,
    fun n N s t dt rho phi => ⟨rfl, fun h => ?_⟩⟩
  · exact smul_renorm _ h
  · exact smul_renorm _ h
  · exact smul_renorm _ h
  · exact smul_renorm _ h

/-- C10 witness: the theorem applied to the trivial one-dimensional instance
(with co-state `phi = 1`). -/
theorem trace_renormalization_well_defined_witness :
    (Matrix.trace (rouchon1_pre s0 0 1 1)).re ≠ 0
  ∧ ((Matrix.trace (rouchon1_pre s0 0 1 1)).re : ℂ) • MERouchon1.forward s0 0 1 1
      = rouchon1_pre s0 0 1 1
  ∧ (Matrix.trace (rouchon1_backward_pre s0 0 1 1)).re ≠ 0
  ∧ ((Matrix.trace (rouchon1_backward_pre s0 0 1 1)).re : ℂ)
        • (MERouchon1.backward_augmented s0 0 1 1 1).1
      = rouchon1_backward_pre s0 0 1 1
  ∧ (Matrix.trace (rouchon2_pre s0 0 1 1)).re ≠ 0
  ∧ ((Matrix.trace (rouchon2_pre s0 0 1 1)).re : ℂ) • MERouchon2.forward s0 0 1 1
      = rouchon2_pre s0 0 1 1
  ∧ (Matrix.trace (rouchon2_backward_pre s0 0 1 1)).re ≠ 0
  ∧ ((Matrix.trace (rouchon2_backward_pre s0 0 1 1)).re : ℂ)
        • (MERouchon2.backward_augmented s0 0 1 1 1).1
      = rouchon2_backward_pre s0 0 1 1 := by
  have h1 : (Matrix.trace (rouchon1_pre s0 0 1 1)).re ≠ 0 := by
    rw [pre1_s0, trace_one_mat1]; norm_num
  have h2 : (Matrix.trace (rouchon1_backward_pre s0 0 1 1)).re ≠ 0 := by
    rw [pre1_back_s0, trace_one_mat1]; norm_num
  have h3 : (Matrix.trace (rouchon2_pre s0 0 1 1)).re ≠ 0 := by
    rw [pre2_s0, trace_one_mat1]; norm_num
  have h4 : (Matrix.trace (rouchon2_backward_pre s0 0 1 1)).re ≠ 0 := by
    rw [pre2_back_s0, trace_one_mat1]; norm_num
  exact ⟨h1, (trace_renormalization_well_defined.1 1 1 s0 0 1 1).2 h1,
    h2, (trace_renormalization_well_defined.2.1 1 1 s0 0 1 1 1).2 h2,
    h3, (trace_renormalization_well_defined.2.2.1 1 1 s0 0 1 1).2 h3,
    h4, (trace_renormalization_well_defined.2.2.2 1 1 s0 0 1 1 1).2 h4⟩

end
